import Mathlib

/-!
Verification of the `loco` line-counting tool (src/loco.rs, src/main.rs).

This file gives a shallow embedding of the parts of the program that the
checked properties are about:

* the per-file lexical line classifier `analyze_file_advanced` (loco.rs,
  lines 878-1131), embedded as `Loco.analyzeContent` over the list of lines
  of the file (the upstream I/O — reading the file and splitting it into
  lines — is external to the core and is not modelled);
* the language rule table `LanguageConfig::get_config` (loco.rs 260-535),
  embedded as `Loco.getConfig`;
* the per-language aggregation performed in `main` via
  `languages.entry(..).and_modify(..).or_insert(..)` (loco.rs 2215-2253),
  embedded as `Loco.mergeStats` / `Loco.mergeAll`;
* the hotspot ranker `detect_hotspots_improved` (loco.rs 1213-1325),
  embedded as `Loco.detectHotspots`.

Modelling conventions:

* Rust strings are modelled as `List Char`; the source only slices at
  positions returned by `find`, which are always character-aligned, and
  every comment/keyword marker in the rule table is ASCII, so character
  indices agree with Rust's byte indices on the inputs of interest.
* Rust `f64` arithmetic is modelled exactly over `ℚ` (the usual
  exact-arithmetic semantics); `f64::ln`, being transcendental, is kept as
  an explicit function parameter `ln : ℚ → ℚ` of the maintainability-index
  computation, so every theorem about it holds for every interpretation of
  the logarithm.
* Rust's stable `sort_by` on a total preorder has a unique result, which is
  reproduced here by a stable insertion sort (`Loco.sortByDesc`).
-/

namespace Loco

/-- Rust `str` modelled as a list of characters. -/
abbrev Str := List Char

/-- Shorthand turning a Lean string literal into the `List Char` model. -/
def s2l (s : String) : Str := s.toList

/-- Rust `char::is_whitespace` restricted to ASCII (all inputs of interest
are ASCII; Lean's `Char.isWhitespace` covers the same ASCII set). -/
def isWs (c : Char) : Bool := c.isWhitespace

/-- Rust `str::trim`: drop whitespace from both ends. -/
def trimStr (s : Str) : Str :=
  ((s.dropWhile isWs).reverse.dropWhile isWs).reverse

/-- Rust `str::find(pattern)`: index of the first occurrence of `needle`
as a contiguous substring of `hay`, if any. -/
def findSub (needle : Str) : Str → Option Nat
  | [] => if needle = [] then some 0 else none
  | c :: rest =>
    if needle.isPrefixOf (c :: rest) then some 0
    else (findSub needle rest).map (· + 1)

/-- Rust `str::contains(pattern)`. -/
def containsSub (needle hay : Str) : Bool := (findSub needle hay).isSome

/-- Rust `str::to_uppercase` (ASCII range). -/
def toUpperStr (s : Str) : Str := s.map Char.toUpper

/-- Rust `str::to_lowercase` (ASCII range). -/
def toLowerStr (s : Str) : Str := s.map Char.toLower

/-- The lexical rule set for one language: struct `LanguageConfig`
(loco.rs 247-257). -/
structure LanguageConfig where
  single_line_comments : List Str
  multi_line_comments : List (Str × Str)
  function_keywords : List Str
  class_keywords : List Str
  import_keywords : List Str
  complexity_keywords : List Str
  test_keywords : List Str
  doc_keywords : List Str
deriving DecidableEq, Repr

/-- The Rust rule set (loco.rs 262-271). -/
def rustConfig : LanguageConfig where
  single_line_comments := [s2l "//"]
  multi_line_comments := [(s2l "/*", s2l "*/")]
  function_keywords := [s2l "fn ", s2l "async fn "]
  class_keywords := [s2l "struct ", s2l "enum ", s2l "trait ", s2l "impl "]
  import_keywords := [s2l "use ", s2l "extern ", s2l "mod "]
  complexity_keywords :=
    [s2l "if ", s2l "while ", s2l "for ", s2l "match ", s2l "loop ", s2l "else if "]
  test_keywords := [s2l "#[test]", s2l "#[cfg(test)]", s2l "assert!"]
  doc_keywords := [s2l "///", s2l "//!", s2l "#[doc"]

/-- The Python rule set (loco.rs 272-281).  Note that both configured
multi-line pairs have a terminator equal to their start marker. -/
def pythonConfig : LanguageConfig where
  single_line_comments := [s2l "#"]
  multi_line_comments :=
    [(s2l "\"\"\"", s2l "\"\"\""), (s2l "'''", s2l "'''")]
  function_keywords := [s2l "def ", s2l "async def ", s2l "lambda "]
  class_keywords := [s2l "class "]
  import_keywords := [s2l "import ", s2l "from "]
  complexity_keywords :=
    [s2l "if ", s2l "while ", s2l "for ", s2l "try ", s2l "except ", s2l "with ", s2l "elif "]
  test_keywords := [s2l "def test_", s2l "import unittest", s2l "import pytest"]
  doc_keywords := [s2l "\"\"\"", s2l "'''", s2l "# TODO", s2l "# FIXME"]

/-- `LanguageConfig::get_config` (loco.rs 260-535): the extension is
lowercased and matched against the full rule table; unknown extensions get
`none`.  Branches below appear in the source's order. -/
def getConfig (extension : Str) : Option LanguageConfig :=
  let e := toLowerStr extension
  if e = s2l "rs" then some rustConfig
  else if e = s2l "py" ∨ e = s2l "pyw" ∨ e = s2l "pyi" then some pythonConfig
  else if e = s2l "js" ∨ e = s2l "ts" ∨ e = s2l "jsx" ∨ e = s2l "tsx" ∨
          e = s2l "mjs" ∨ e = s2l "cjs" then some
    { single_line_comments := [s2l "//"]
      multi_line_comments := [(s2l "/*", s2l "*/")]
      function_keywords :=
        [s2l "function ", s2l "=>", s2l "async ", s2l "const ", s2l "let ", s2l "var "]
      class_keywords := [s2l "class ", s2l "interface ", s2l "type ", s2l "enum "]
      import_keywords := [s2l "import ", s2l "require(", s2l "export ", s2l "from "]
      complexity_keywords :=
        [s2l "if ", s2l "while ", s2l "for ", s2l "switch ", s2l "try ", s2l "catch ",
         s2l "else if "]
      test_keywords := [s2l "describe(", s2l "it(", s2l "test(", s2l "expect("]
      doc_keywords := [s2l "/**", s2l "//", s2l "@param", s2l "@return"] }
  else if e = s2l "java" ∨ e = s2l "kt" ∨ e = s2l "scala" then some
    { single_line_comments := [s2l "//"]
      multi_line_comments := [(s2l "/*", s2l "*/")]
      function_keywords := [s2l "public ", s2l "private ", s2l "protected ", s2l "static "]
      class_keywords := [s2l "class ", s2l "interface ", s2l "enum ", s2l "abstract "]
      import_keywords := [s2l "import ", s2l "package "]
      complexity_keywords :=
        [s2l "if ", s2l "while ", s2l "for ", s2l "switch ", s2l "try ", s2l "catch ",
         s2l "else if "]
      test_keywords := [s2l "@Test", s2l "junit", s2l "testng"]
      doc_keywords := [s2l "/**", s2l "//", s2l "@param", s2l "@return"] }
  else if e = s2l "c" then some
    { single_line_comments := [s2l "//"]
      multi_line_comments := [(s2l "/*", s2l "*/")]
      function_keywords :=
        [s2l "int ", s2l "void ", s2l "char ", s2l "float ", s2l "double ", s2l "static "]
      class_keywords := [s2l "struct ", s2l "union ", s2l "enum ", s2l "typedef "]
      import_keywords := [s2l "#include", s2l "#import", s2l "#define"]
      complexity_keywords := [s2l "if ", s2l "while ", s2l "for ", s2l "switch ", s2l "else if "]
      test_keywords := [s2l "TEST(", s2l "ASSERT_", s2l "EXPECT_"]
      doc_keywords := [s2l "/**", s2l "//!", s2l "///"] }
  else if e = s2l "h" then some
    { single_line_comments := [s2l "//"]
      multi_line_comments := [(s2l "/*", s2l "*/")]
      function_keywords := [s2l "extern ", s2l "static ", s2l "inline "]
      class_keywords := [s2l "struct ", s2l "union ", s2l "enum ", s2l "typedef "]
      import_keywords := [s2l "#include", s2l "#import", s2l "#define", s2l "#ifndef", s2l "#ifdef"]
      complexity_keywords := [s2l "if ", s2l "while ", s2l "for ", s2l "switch ", s2l "else if "]
      test_keywords := [s2l "TEST(", s2l "ASSERT_", s2l "EXPECT_"]
      doc_keywords := [s2l "/**", s2l "//!", s2l "///"] }
  else if e = s2l "cpp" ∨ e = s2l "cc" ∨ e = s2l "cxx" ∨ e = s2l "hpp" ∨
          e = s2l "c++" then some
    { single_line_comments := [s2l "//"]
      multi_line_comments := [(s2l "/*", s2l "*/")]
      function_keywords :=
        [s2l "int ", s2l "void ", s2l "char ", s2l "float ", s2l "double ", s2l "bool "]
      class_keywords := [s2l "class ", s2l "struct ", s2l "union ", s2l "enum ", s2l "namespace "]
      import_keywords := [s2l "#include", s2l "#import", s2l "using "]
      complexity_keywords := [s2l "if ", s2l "while ", s2l "for ", s2l "switch ", s2l "else if "]
      test_keywords := [s2l "TEST(", s2l "ASSERT_", s2l "EXPECT_"]
      doc_keywords := [s2l "/**", s2l "//!", s2l "///"] }
  else if e = s2l "go" then some
    { single_line_comments := [s2l "//"]
      multi_line_comments := [(s2l "/*", s2l "*/")]
      function_keywords := [s2l "func "]
      class_keywords := [s2l "type ", s2l "struct ", s2l "interface "]
      import_keywords := [s2l "import ", s2l "package "]
      complexity_keywords := [s2l "if ", s2l "for ", s2l "switch ", s2l "select ", s2l "else if "]
      test_keywords := [s2l "func Test", s2l "testing.T"]
      doc_keywords := [s2l "//", s2l "/*"] }
  else if e = s2l "php" then some
    { single_line_comments := [s2l "//", s2l "#"]
      multi_line_comments := [(s2l "/*", s2l "*/")]
      function_keywords := [s2l "function ", s2l "public function ", s2l "private function "]
      class_keywords := [s2l "class ", s2l "interface ", s2l "trait ", s2l "abstract "]
      import_keywords := [s2l "require", s2l "include", s2l "use "]
      complexity_keywords :=
        [s2l "if ", s2l "while ", s2l "for ", s2l "switch ", s2l "try ", s2l "catch "]
      test_keywords := [s2l "function test", s2l "PHPUnit"]
      doc_keywords := [s2l "/**", s2l "//", s2l "*"] }
  else if e = s2l "json" then some
    { single_line_comments := []
      multi_line_comments := []
      function_keywords := []
      class_keywords := []
      import_keywords := []
      complexity_keywords := []
      test_keywords := []
      doc_keywords := [] }
  else if e = s2l "yaml" ∨ e = s2l "yml" then some
    { single_line_comments := [s2l "#"]
      multi_line_comments := []
      function_keywords := []
      class_keywords := []
      import_keywords := []
      complexity_keywords := []
      test_keywords := []
      doc_keywords := [s2l "#"] }
  else if e = s2l "xml" ∨ e = s2l "html" ∨ e = s2l "htm" then some
    { single_line_comments := []
      multi_line_comments := [(s2l "<!--", s2l "-->")]
      function_keywords := []
      class_keywords := []
      import_keywords := []
      complexity_keywords := []
      test_keywords := []
      doc_keywords := [s2l "<!--"] }
  else if e = s2l "css" ∨ e = s2l "scss" ∨ e = s2l "sass" then some
    { single_line_comments := [s2l "//"]
      multi_line_comments := [(s2l "/*", s2l "*/")]
      function_keywords := []
      class_keywords := [s2l ".", s2l "#"]
      import_keywords := [s2l "@import", s2l "@use"]
      complexity_keywords := []
      test_keywords := []
      doc_keywords := [s2l "/*"] }
  else if e = s2l "sh" ∨ e = s2l "bash" ∨ e = s2l "zsh" ∨ e = s2l "fish" then some
    { single_line_comments := [s2l "#"]
      multi_line_comments := []
      function_keywords := [s2l "function ", s2l "()"]
      class_keywords := []
      import_keywords := [s2l "source ", s2l ". "]
      complexity_keywords := [s2l "if ", s2l "while ", s2l "for ", s2l "case ", s2l "elif "]
      test_keywords := [s2l "test ", s2l "[ "]
      doc_keywords := [s2l "#"] }
  else if e = s2l "sql" then some
    { single_line_comments := [s2l "--"]
      multi_line_comments := [(s2l "/*", s2l "*/")]
      function_keywords := [s2l "CREATE FUNCTION", s2l "CREATE PROCEDURE"]
      class_keywords := [s2l "CREATE TABLE", s2l "CREATE VIEW"]
      import_keywords := []
      complexity_keywords := [s2l "IF ", s2l "WHILE ", s2l "CASE "]
      test_keywords := []
      doc_keywords := [s2l "--", s2l "/*"] }
  else if e = s2l "r" then some
    { single_line_comments := [s2l "#"]
      multi_line_comments := []
      function_keywords := [s2l "function(", s2l "<- function"]
      class_keywords := [s2l "setClass("]
      import_keywords := [s2l "library(", s2l "require(", s2l "source("]
      complexity_keywords := [s2l "if(", s2l "while(", s2l "for("]
      test_keywords := [s2l "test_that(", s2l "expect_"]
      doc_keywords := [s2l "#'", s2l "#"] }
  else if e = s2l "rb" then some
    { single_line_comments := [s2l "#"]
      multi_line_comments := [(s2l "=begin", s2l "=end")]
      function_keywords := [s2l "def "]
      class_keywords := [s2l "class ", s2l "module "]
      import_keywords := [s2l "require ", s2l "load "]
      complexity_keywords := [s2l "if ", s2l "while ", s2l "for ", s2l "case ", s2l "elsif "]
      test_keywords := [s2l "describe ", s2l "it ", s2l "test_"]
      doc_keywords := [s2l "#", s2l "=begin"] }
  else if e = s2l "swift" then some
    { single_line_comments := [s2l "//"]
      multi_line_comments := [(s2l "/*", s2l "*/")]
      function_keywords := [s2l "func "]
      class_keywords := [s2l "class ", s2l "struct ", s2l "enum ", s2l "protocol "]
      import_keywords := [s2l "import "]
      complexity_keywords :=
        [s2l "if ", s2l "while ", s2l "for ", s2l "switch ", s2l "else if "]
      test_keywords := [s2l "func test", s2l "XCTest"]
      doc_keywords := [s2l "///", s2l "/**"] }
  else if e = s2l "dart" then some
    { single_line_comments := [s2l "//"]
      multi_line_comments := [(s2l "/*", s2l "*/")]
      function_keywords := [s2l "void ", s2l "int ", s2l "String ", s2l "double "]
      class_keywords := [s2l "class ", s2l "abstract class ", s2l "mixin "]
      import_keywords := [s2l "import ", s2l "part "]
      complexity_keywords :=
        [s2l "if ", s2l "while ", s2l "for ", s2l "switch ", s2l "else if "]
      test_keywords := [s2l "test(", s2l "group("]
      doc_keywords := [s2l "///", s2l "/**"] }
  else if e = s2l "lua" then some
    { single_line_comments := [s2l "--"]
      multi_line_comments := [(s2l "--[[", s2l "]]")]
      function_keywords := [s2l "function ", s2l "local function "]
      class_keywords := []
      import_keywords := [s2l "require(", s2l "dofile("]
      complexity_keywords := [s2l "if ", s2l "while ", s2l "for ", s2l "elseif "]
      test_keywords := []
      doc_keywords := [s2l "--", s2l "--[["] }
  else if e = s2l "perl" ∨ e = s2l "pl" then some
    { single_line_comments := [s2l "#"]
      multi_line_comments := [(s2l "=pod", s2l "=cut")]
      function_keywords := [s2l "sub "]
      class_keywords := [s2l "package "]
      import_keywords := [s2l "use ", s2l "require "]
      complexity_keywords := [s2l "if ", s2l "while ", s2l "for ", s2l "elsif "]
      test_keywords := [s2l "ok(", s2l "is("]
      doc_keywords := [s2l "#", s2l "=pod"] }
  else if e = s2l "asm" ∨ e = s2l "s" then some
    { single_line_comments := [s2l ";", s2l "#", s2l "//"]
      multi_line_comments := [(s2l "/*", s2l "*/")]
      function_keywords := [s2l ".globl", s2l ".global"]
      class_keywords := [s2l ".section", s2l ".data", s2l ".text"]
      import_keywords := [s2l ".include"]
      complexity_keywords := [s2l "jmp", s2l "je", s2l "jne", s2l "call"]
      test_keywords := []
      doc_keywords := [s2l ";", s2l "//"] }
  else if e = s2l "md" ∨ e = s2l "markdown" then some
    { single_line_comments := []
      multi_line_comments := [(s2l "<!--", s2l "-->")]
      function_keywords := []
      class_keywords := []
      import_keywords := []
      complexity_keywords := []
      test_keywords := []
      doc_keywords := [s2l "#", s2l "<!--"] }
  else if e = s2l "toml" then some
    { single_line_comments := [s2l "#"]
      multi_line_comments := []
      function_keywords := []
      class_keywords := []
      import_keywords := []
      complexity_keywords := []
      test_keywords := []
      doc_keywords := [s2l "#"] }
  else if e = s2l "ini" ∨ e = s2l "cfg" ∨ e = s2l "conf" then some
    { single_line_comments := [s2l ";", s2l "#"]
      multi_line_comments := []
      function_keywords := []
      class_keywords := []
      import_keywords := []
      complexity_keywords := []
      test_keywords := []
      doc_keywords := [s2l ";", s2l "#"] }
  else if e = s2l "dockerfile" then some
    { single_line_comments := [s2l "#"]
      multi_line_comments := []
      function_keywords := [s2l "FROM", s2l "RUN", s2l "COPY", s2l "ADD"]
      class_keywords := []
      import_keywords := [s2l "FROM"]
      complexity_keywords := [s2l "IF", s2l "ONBUILD"]
      test_keywords := []
      doc_keywords := [s2l "#"] }
  else if e = s2l "make" ∨ e = s2l "makefile" then some
    { single_line_comments := [s2l "#"]
      multi_line_comments := []
      function_keywords := []
      class_keywords := []
      import_keywords := [s2l "include", s2l "-include"]
      complexity_keywords := [s2l "ifeq", s2l "ifneq", s2l "ifdef", s2l "ifndef"]
      test_keywords := []
      doc_keywords := [s2l "#"] }
  else none

/-! ### The per-file line classifier

`analyze_file_advanced` (loco.rs 878-1131).  The mutable per-line scan
state of the Rust loop is made explicit as `ScanState`; the loop body is
`processLine`, and the whole loop is a left fold. -/

/-- The mutable state of the line-scanning loop of `analyze_file_advanced`
(loco.rs 881-898).  `complexity_raw` and `cyclomatic_raw` are the running
`complexity_score` / `cyclomatic_complexity` accumulators before the final
divisions. -/
structure ScanState where
  code_lines : Nat := 0
  comment_lines : Nat := 0
  blank_lines : Nat := 0
  functions : Nat := 0
  classes : Nat := 0
  imports : Nat := 0
  todos : Nat := 0
  fixmes : Nat := 0
  complexity_raw : ℚ := 0
  cyclomatic_raw : ℚ := 0
  max_line_length : Nat := 0
  total_chars : Nat := 0
  test_indicators : Nat := 0
  doc_indicators : Nat := 0
  in_multi : Bool := false
  multi_end : Str := []
  nesting_level : Int := 0
deriving DecidableEq, Repr

/-- First multi-line pair (in configured order) whose start marker occurs
in the line, with the position of that occurrence: the
`for (start, end) in &config.multi_line_comments` loop head
(loco.rs 950-951). -/
def findFirstPair : List (Str × Str) → Str → Option (Str × Str × Nat)
  | [], _ => none
  | (s, e) :: rest, lc =>
    match findSub s lc with
    | some p => some (s, e, p)
    | none => findFirstPair rest lc

/-- First single-line marker (in configured order) occurring in the line,
with its position: the `for comment_start in &config.single_line_comments`
loop head (loco.rs 979-980). -/
def findFirstMarker : List Str → Str → Option (Str × Nat)
  | [], _ => none
  | m :: rest, lc =>
    match findSub m lc with
    | some p => some (m, p)
    | none => findFirstMarker rest lc

/-- The `if !found_comment { code_lines += 1; ... }` block
(loco.rs 992-1031): count the line as code and scan the
complexity/function/class/import keyword lists, tracking brace nesting. -/
def codeBranch (cfg : LanguageConfig) (st : ScanState) (lc : Str) : ScanState :=
  let st := { st with code_lines := st.code_lines + 1 }
  let st :=
    if cfg.complexity_keywords.any (fun k => containsSub k lc) then
      { st with complexity_raw := st.complexity_raw + 1,
                cyclomatic_raw := st.cyclomatic_raw + 1 }
    else st
  let openB := (lc.count '{' : Int)
  let closeB := (lc.count '}' : Int)
  let lvl := st.nesting_level + openB - closeB
  let st := { st with nesting_level := lvl }
  let st := if lvl > 0 then { st with complexity_raw := st.complexity_raw + 0.05 } else st
  let st :=
    if cfg.function_keywords.any (fun k => containsSub k lc) then
      { st with functions := st.functions + 1 }
    else st
  let st :=
    if cfg.class_keywords.any (fun k => containsSub k lc) then
      { st with classes := st.classes + 1 }
    else st
  if cfg.import_keywords.any (fun k => containsSub k lc) then
    { st with imports := st.imports + 1 }
  else st

/-- The single-line-comment scan plus the code branch (loco.rs 976-1031).
Faithful to the source: when a single-line marker is found with non-empty
text before it, the source increments `code_lines` but leaves
`found_comment` false, so the code branch then runs as well. -/
def singleOrCode (cfg : LanguageConfig) (st : ScanState) (lc : Str) : ScanState :=
  match findFirstMarker cfg.single_line_comments lc with
  | some (_, p) =>
    let before := trimStr (lc.take p)
    if before = [] then { st with comment_lines := st.comment_lines + 1 }
    else codeBranch cfg { st with code_lines := st.code_lines + 1 } lc
  | none => codeBranch cfg st lc

/-- The multi-line-comment start scan (loco.rs 949-974) followed, when no
pair matches, by the single-line scan and code branch. -/
def classifyContent (cfg : LanguageConfig) (st : ScanState) (lc : Str) : ScanState :=
  match findFirstPair cfg.multi_line_comments lc with
  | some (s, e, p) =>
    let before := trimStr (lc.take p)
    match findSub e (lc.drop (p + s.length)) with
    | some q =>
      let after := trimStr (lc.drop (p + s.length + q + e.length))
      if before ≠ [] ∨ after ≠ [] then
        { st with code_lines := st.code_lines + 1 }
      else
        { st with comment_lines := st.comment_lines + 1 }
    | none =>
      let st := { st with in_multi := true, multi_end := e }
      if before ≠ [] then { st with code_lines := st.code_lines + 1 }
      else { st with comment_lines := st.comment_lines + 1 }
  | none => singleOrCode cfg st lc

/-- One iteration of the `for line in &lines` loop (loco.rs 900-1033). -/
def processLine (cfg : LanguageConfig) (st : ScanState) (line : Str) : ScanState :=
  let trimmed := trimStr line
  let st := { st with max_line_length := max st.max_line_length line.length,
                      total_chars := st.total_chars + line.length }
  if trimmed = [] then { st with blank_lines := st.blank_lines + 1 }
  else
    let upper := toUpperStr trimmed
    let st := { st with
      todos := st.todos + (if containsSub (s2l "TODO") upper then 1 else 0),
      fixmes := st.fixmes +
        (if containsSub (s2l "FIXME") upper ∨ containsSub (s2l "HACK") upper ∨
            containsSub (s2l "BUG") upper then 1 else 0),
      test_indicators := st.test_indicators +
        (if cfg.test_keywords.any (fun k => containsSub (toUpperStr k) upper) then 1 else 0),
      doc_indicators := st.doc_indicators +
        (if cfg.doc_keywords.any (fun k => containsSub k trimmed) then 1 else 0) }
    if st.in_multi then
      let st1 := { st with comment_lines := st.comment_lines + 1 }
      match findSub st.multi_end trimmed with
      | none => st1
      | some p =>
        let st2 := { st1 with in_multi := false }
        let rest := trimStr (trimmed.drop (p + st.multi_end.length))
        if rest = [] then st2
        else classifyContent cfg st2 rest
    else classifyContent cfg st trimmed

/-- The whole scanning loop over the file's lines. -/
def scanLines (cfg : LanguageConfig) (lines : List Str) : ScanState :=
  lines.foldl (processLine cfg) {}

/-- The per-file output record: the fields of `LanguageStats` / `FileInfo`
computed by `analyze_file_advanced` from the file content (loco.rs
1035-1112), minus the maintainability index, which involves `f64::ln` and
is therefore a separate function (`maintainabilityIndex`) of this record. -/
structure ScanResult where
  total_lines : Nat
  code_lines : Nat
  comment_lines : Nat
  blank_lines : Nat
  functions : Nat
  classes : Nat
  imports : Nat
  todos : Nat
  fixmes : Nat
  max_line_length : Nat
  total_chars : Nat
  test_indicators : Nat
  doc_indicators : Nat
  avg_line_length : ℚ
  complexity_score : ℚ
  cyclomatic_complexity : ℚ
  technical_debt_ratio : ℚ
  code_percentage : ℚ
  comment_percentage : ℚ
  blank_percentage : ℚ
deriving DecidableEq, Repr

/-- The content-dependent part of `analyze_file_advanced`: scan all lines,
then derive the averaged metrics with zero-denominator guards
(loco.rs 1035-1075). -/
def analyzeContent (cfg : LanguageConfig) (lines : List Str) : ScanResult :=
  let st := scanLines cfg lines
  let total := lines.length
  { total_lines := total
    code_lines := st.code_lines
    comment_lines := st.comment_lines
    blank_lines := st.blank_lines
    functions := st.functions
    classes := st.classes
    imports := st.imports
    todos := st.todos
    fixmes := st.fixmes
    max_line_length := st.max_line_length
    total_chars := st.total_chars
    test_indicators := st.test_indicators
    doc_indicators := st.doc_indicators
    avg_line_length := if total > 0 then (st.total_chars : ℚ) / total else 0
    complexity_score :=
      if st.code_lines > 0 then st.complexity_raw / st.code_lines else 0
    cyclomatic_complexity :=
      if st.functions > 0 then (st.cyclomatic_raw + st.functions) / st.functions else 1
    technical_debt_ratio :=
      if total > 0 then ((st.todos : ℚ) + st.fixmes) / total * 100 else 0
    code_percentage := if total > 0 then (st.code_lines : ℚ) / total * 100 else 0
    comment_percentage := if total > 0 then (st.comment_lines : ℚ) / total * 100 else 0
    blank_percentage := if total > 0 then (st.blank_lines : ℚ) / total * 100 else 0 }

/-- The maintainability index (loco.rs 1049-1065).  `f64::ln` is
transcendental, so it is passed in as an uninterpreted function `ln`;
every theorem below holds for every interpretation of `ln`. -/
def maintainabilityIndex (ln : ℚ → ℚ) (r : ScanResult) : ℚ :=
  if r.code_lines > 0 ∧ r.total_lines > 0 then
    let volume := max (ln ((r.total_lines : ℚ) * 2)) 1
    let complexity_factor := ln (max r.cyclomatic_complexity 1)
    let comment_ratio := (r.comment_lines : ℚ) / r.total_lines
    let comment_factor := if comment_ratio > 0 then min (comment_ratio * 50) 50 else 0
    let test_factor : ℚ := if r.test_indicators > 0 then 5 else 0
    let doc_factor : ℚ := if r.doc_indicators > 0 then 3 else 0
    let base_score :=
      171 - 5.2 * volume - 0.23 * complexity_factor + comment_factor + test_factor + doc_factor
    min (max base_score 0) 100
  else 50

/-! ### Per-language aggregation

The `languages.entry(language).and_modify(..).or_insert(file_stats)` merge
in `main` (loco.rs 2215-2253).  The concurrent map is modelled as an
association list from language label to `LanguageStats`; per-key merges
serialize, so a run is a fold over the file metrics in merge order. -/

/-- The aggregation view of `LanguageStats` (loco.rs 190-211): the fields
read and written by the merge.  A per-file record (a FileMetric) is a
`LanguageStats` with `files = 1` (loco.rs 1092-1112 sets `files: 1`). -/
structure LanguageStats where
  total_lines : Nat
  code_lines : Nat
  comment_lines : Nat
  blank_lines : Nat
  files : Nat
  total_size : Nat
  avg_line_length : ℚ
  max_line_length : Nat
  complexity_score : ℚ
  functions : Nat
  classes : Nat
  imports : Nat
  todos : Nat
  fixmes : Nat
  code_percentage : ℚ
  comment_percentage : ℚ
  blank_percentage : ℚ
  cyclomatic_complexity : ℚ
  maintainability_index : ℚ
deriving DecidableEq, Repr

/-- The `and_modify` closure (loco.rs 2215-2253): merge one per-file
record `fs` into the existing aggregate `entry`.  Additive counters are
summed (`files` is incremented by one), the four weighted-average fields
are recomputed with the previous file count as the old weight, and the
percentages are recomputed from the running sums. -/
def mergeStats (entry fs : LanguageStats) : LanguageStats :=
  let e1 : LanguageStats := { entry with
    total_lines := entry.total_lines + fs.total_lines
    code_lines := entry.code_lines + fs.code_lines
    comment_lines := entry.comment_lines + fs.comment_lines
    blank_lines := entry.blank_lines + fs.blank_lines
    files := entry.files + 1
    total_size := entry.total_size + fs.total_size }
  let old_count : Nat := e1.files - 1
  let e2 : LanguageStats :=
    if old_count > 0 then
      let weight_old : ℚ := (old_count : ℚ)
      let weight_new : ℚ := (e1.files : ℚ)
      { e1 with
        avg_line_length := (e1.avg_line_length * weight_old + fs.avg_line_length) / weight_new
        complexity_score := (e1.complexity_score * weight_old + fs.complexity_score) / weight_new
        maintainability_index :=
          (e1.maintainability_index * weight_old + fs.maintainability_index) / weight_new
        cyclomatic_complexity :=
          (e1.cyclomatic_complexity * weight_old + fs.cyclomatic_complexity) / weight_new }
    else
      { e1 with
        avg_line_length := fs.avg_line_length
        complexity_score := fs.complexity_score
        maintainability_index := fs.maintainability_index
        cyclomatic_complexity := fs.cyclomatic_complexity }
  let e3 : LanguageStats := { e2 with
    max_line_length := max e2.max_line_length fs.max_line_length
    functions := e2.functions + fs.functions
    classes := e2.classes + fs.classes
    imports := e2.imports + fs.imports
    todos := e2.todos + fs.todos
    fixmes := e2.fixmes + fs.fixmes }
  if e3.total_lines > 0 then
    { e3 with
      code_percentage := (e3.code_lines : ℚ) / e3.total_lines * 100
      comment_percentage := (e3.comment_lines : ℚ) / e3.total_lines * 100
      blank_percentage := (e3.blank_lines : ℚ) / e3.total_lines * 100 }
  else e3

/-- `languages.entry(k).and_modify(..).or_insert(v)`: update the aggregate
under key `k` if present, otherwise insert `v` as the initial aggregate. -/
def updateMap : List (Str × LanguageStats) → Str × LanguageStats →
    List (Str × LanguageStats)
  | [], kv => [kv]
  | (k1, v1) :: rest, (k, v) =>
    if k = k1 then (k1, mergeStats v1 v) :: rest
    else (k1, v1) :: updateMap rest (k, v)

/-- A whole aggregation run: merge every (language, per-file record) pair,
in the given order, into an initially empty map. -/
def mergeAll (ms : List (Str × LanguageStats)) : List (Str × LanguageStats) :=
  ms.foldl updateMap []

/-- Sum of one numeric field over all aggregates of the map. -/
def sumMap (f : LanguageStats → Nat) (map : List (Str × LanguageStats)) : Nat :=
  (map.map (fun kv => f kv.2)).sum

/-- Sum of one numeric field over a list of per-file records. -/
def sumMetrics (f : LanguageStats → Nat) (ms : List (Str × LanguageStats)) : Nat :=
  (ms.map (fun kv => f kv.2)).sum

/-! ### Hotspot ranking

`detect_hotspots_improved` (loco.rs 1213-1325). -/

/-- The fields of `FileInfo` (loco.rs 214-228) that the hotspot ranker
reads. -/
structure FileInfo where
  path : Str
  lines : Nat
  size : Nat
  complexity : ℚ
  todos : Nat
  maintainability_index : ℚ
  technical_debt_ratio : ℚ
  cyclomatic_complexity : ℚ
deriving DecidableEq, Repr

/-- Ascending insertion of a line count into a sorted list. -/
def insertAscN (x : Nat) : List Nat → List Nat
  | [] => [x]
  | y :: ys => if x ≤ y then x :: y :: ys else y :: insertAscN x ys

/-- Ascending sort of line counts: extensionally the unique sorted value
sequence produced by Rust's `sort_unstable` (loco.rs 1224). -/
def sortAscN : List Nat → List Nat
  | [] => []
  | x :: xs => insertAscN x (sortAscN xs)

/-- Ascending insertion of a complexity value into a sorted list. -/
def insertAscQ (x : ℚ) : List ℚ → List ℚ
  | [] => [x]
  | y :: ys => if x ≤ y then x :: y :: ys else y :: insertAscQ x ys

/-- Ascending sort of complexity values: extensionally the unique sorted
value sequence produced by the `sort_by(partial_cmp)` of loco.rs 1226. -/
def sortAscQ : List ℚ → List ℚ
  | [] => []
  | x :: xs => insertAscQ x (sortAscQ xs)

/-- 90th-percentile line count threshold: `max(300, lines_90th)` where
`lines_90th` indexes the ascending-sorted line counts at `len * 90 / 100`
(loco.rs 1224-1237). -/
def largeFileThreshold (fs : List FileInfo) : Nat :=
  let sorted := sortAscN (fs.map (·.lines))
  max 300 (sorted.getD (fs.length * 90 / 100) 0)

/-- 90th-percentile complexity threshold: `complexity_90th.max(0.15)`
(loco.rs 1225-1238). -/
def highComplexityThreshold (fs : List FileInfo) : ℚ :=
  let sorted := sortAscQ (fs.map (·.complexity))
  max (sorted.getD (fs.length * 90 / 100) 0) 0.15

/-- The cutoff risk score of the filter pass (loco.rs 1242-1299): the sum
of the weighted indicator bonuses.  `high_todos_threshold = 5` and
`large_size_threshold = 100 * 1024` are inlined constants. -/
def riskScore (largeT : Nat) (complexT : ℚ) (f : FileInfo) : ℚ :=
  (if f.lines > largeT then 3 else 0) +
  (if f.lines > largeT * 2 then 2 else 0) +
  (if f.complexity > complexT then 4 else 0) +
  (if f.complexity > complexT * 2 then 2 else 0) +
  (if f.todos ≥ 5 then 3 else 0) +
  (if f.todos ≥ 5 * 2 then 1 else 0) +
  (if f.size > 100 * 1024 then 1.5 else 0) +
  (if f.maintainability_index < 40 ∧ f.maintainability_index > 0 then 2.5 else 0) +
  (if f.maintainability_index < 20 ∧ f.maintainability_index > 0 then 1.5 else 0) +
  (if f.technical_debt_ratio > 8 then 2 else 0) +
  (if f.cyclomatic_complexity > 5 then 1.5 else 0)

/-- The second, independently weighted composite used to re-rank the
retained files (loco.rs 1303-1318). -/
def rerankScore (f : FileInfo) : ℚ :=
  f.complexity * 200 + (f.lines : ℚ) / 20 + (f.size : ℚ) / 5000 +
  (f.todos : ℚ) * 10 + f.technical_debt_ratio * 5 +
  (if f.maintainability_index > 0 then 100 - f.maintainability_index else 0) +
  f.cyclomatic_complexity * 10

/-- Stable insertion into a list sorted by strictly decreasing `key`:
an element is placed before the first entry whose key is not larger, which
keeps the original order among equal keys. -/
def insertByDesc (key : FileInfo → ℚ) (x : FileInfo) : List FileInfo → List FileInfo
  | [] => [x]
  | y :: ys => if key y ≤ key x then x :: y :: ys else y :: insertByDesc key x ys

/-- Stable sort by decreasing `key`: the unique result of Rust's stable
`sort_by` with the descending comparator of loco.rs 1303-1321. -/
def sortByDesc (key : FileInfo → ℚ) : List FileInfo → List FileInfo
  | [] => []
  | x :: xs => insertByDesc key x (sortByDesc key xs)

/-- `detect_hotspots_improved` (loco.rs 1213-1325): empty input short
circuits to the empty list; otherwise compute population thresholds,
retain files whose risk score reaches the cutoff `3.0`, re-rank by
`rerankScore` descending, and truncate to the top 15. -/
def detectHotspots (fs : List FileInfo) : List FileInfo :=
  if fs = [] then []
  else
    let largeT := largeFileThreshold fs
    let complexT := highComplexityThreshold fs
    let hot := fs.filter (fun f => 3 ≤ riskScore largeT complexT f)
    (sortByDesc rerankScore hot).take 15

/-- Lookup in the association-list model of the language map. -/
def lookupMap (k : Str) : List (Str × LanguageStats) → Option LanguageStats
  | [] => none
  | (k1, v) :: rest => if k = k1 then some v else lookupMap k rest

/-! ### "Fully enclosed in one multi-line comment" -/

/-- The terminator `e` occurs in `rest` and nothing but whitespace follows
its first occurrence (so the scanner's remainder after closing the comment
is empty). -/
def closesCleanly (e rest : Str) : Bool :=
  match findSub e rest with
  | some q => (trimStr (rest.drop (q + e.length))).isEmpty
  | none => false

/-- The continuation lines of a comment opened on an earlier line: every
line up to the last stays inside the comment (no terminator), and the last
line closes it with nothing after the terminator. -/
def chainClosed (e : Str) : List Str → Bool
  | [] => false
  | [l] => closesCleanly e (trimStr l)
  | l :: l2 :: rest =>
    (findSub e (trimStr l) == none) && chainClosed e (l2 :: rest)

/-- The input is one multi-line comment `(s, e)` spanning every line: the
first trimmed line begins with `s` (nothing before it), the comment stays
open until the last line, and the last line ends it with nothing after the
terminator.  A one-line input is a self-contained `s … e` comment. -/
def fullyEnclosed (s e : Str) : List Str → Bool
  | [] => false
  | first :: rest =>
    let t := trimStr first
    (findSub s t == some 0) &&
    (match rest with
     | [] => closesCleanly e (t.drop s.length)
     | _ :: _ => (findSub e (t.drop s.length) == none) && chainClosed e rest)

/-- No line of the input is blank (whitespace-only). -/
def noBlankLines (lines : List Str) : Bool :=
  lines.all (fun l => !(trimStr l).isEmpty)

/-! ### Concrete sample data used by the claim checks -/

/-- The rule of the spec's worked example: single-line marker `#`, no
multi-line delimiters (keyword lists are irrelevant to line counts). -/
def hashRule : LanguageConfig where
  single_line_comments := [s2l "#"]
  multi_line_comments := []
  function_keywords := []
  class_keywords := []
  import_keywords := []
  complexity_keywords := []
  test_keywords := []
  doc_keywords := []

/-- A per-file record of a one-line file with average line length 0. -/
def metricA : LanguageStats where
  total_lines := 1
  code_lines := 1
  comment_lines := 0
  blank_lines := 0
  files := 1
  total_size := 1
  avg_line_length := 0
  max_line_length := 0
  complexity_score := 0
  functions := 0
  classes := 0
  imports := 0
  todos := 0
  fixmes := 0
  code_percentage := 100
  comment_percentage := 0
  blank_percentage := 0
  cyclomatic_complexity := 1
  maintainability_index := 50

/-- A per-file record of a three-line file with average line length 4. -/
def metricB : LanguageStats :=
  { metricA with total_lines := 3, avg_line_length := 4 }

/-- A file whose only risk signal is `todos = 5`: its risk score is
exactly the cutoff `3.0`. -/
def riskFile : FileInfo where
  path := s2l "a"
  lines := 1
  size := 1
  complexity := 0
  todos := 5
  maintainability_index := 50
  technical_debt_ratio := 0
  cyclomatic_complexity := 1

/-! ### Helper lemmas about the merge -/

/-- Every additive counter of the aggregate is the sum of the two inputs,
except `files`, which the merge increments by exactly one. -/
theorem mergeStats_additive (a b : LanguageStats) :
    (mergeStats a b).total_lines = a.total_lines + b.total_lines ∧
    (mergeStats a b).code_lines = a.code_lines + b.code_lines ∧
    (mergeStats a b).comment_lines = a.comment_lines + b.comment_lines ∧
    (mergeStats a b).blank_lines = a.blank_lines + b.blank_lines ∧
    (mergeStats a b).files = a.files + 1 ∧
    (mergeStats a b).total_size = a.total_size + b.total_size ∧
    (mergeStats a b).functions = a.functions + b.functions ∧
    (mergeStats a b).classes = a.classes + b.classes ∧
    (mergeStats a b).imports = a.imports + b.imports ∧
    (mergeStats a b).todos = a.todos + b.todos ∧
    (mergeStats a b).fixmes = a.fixmes + b.fixmes := by
  simp only [mergeStats]
  split <;> split <;> simp

/-- The four weighted-average fields after one merge, when the existing
aggregate has at least one file. -/
theorem mergeStats_averages (a b : LanguageStats) (ha : 1 ≤ a.files) :
    (mergeStats a b).avg_line_length =
      (a.avg_line_length * a.files + b.avg_line_length) / (a.files + 1) ∧
    (mergeStats a b).complexity_score =
      (a.complexity_score * a.files + b.complexity_score) / (a.files + 1) ∧
    (mergeStats a b).maintainability_index =
      (a.maintainability_index * a.files + b.maintainability_index) / (a.files + 1) ∧
    (mergeStats a b).cyclomatic_complexity =
      (a.cyclomatic_complexity * a.files + b.cyclomatic_complexity) / (a.files + 1) := by
  have h : a.files + 1 - 1 > 0 := by omega
  simp only [mergeStats, if_pos h]
  split <;> simp [Nat.add_sub_cancel, Nat.cast_add, Nat.cast_one]

/-- `files` after a whole fold of merges. -/
theorem foldl_mergeStats_files (ms : List LanguageStats) :
    ∀ m : LanguageStats, (ms.foldl mergeStats m).files = m.files + ms.length := by
  induction ms with
  | nil => intro m; simp
  | cons x xs ih =>
    intro m
    have := ih (mergeStats m x)
    simp only [List.foldl_cons, this, (mergeStats_additive m x).2.2.2.2.1, List.length_cons]
    omega

/-- Generic running-mean invariant of the fold, for any of the four
weighted-average fields (`g`), stated multiplicatively. -/
theorem foldl_mergeStats_avgField (g : LanguageStats → ℚ)
    (hg : ∀ a b : LanguageStats, 1 ≤ a.files →
      g (mergeStats a b) = (g a * a.files + g b) / (a.files + 1))
    (ms : List LanguageStats) :
    ∀ m : LanguageStats, 1 ≤ m.files →
      g (ms.foldl mergeStats m) * ((m.files : ℚ) + ms.length) =
        g m * m.files + (ms.map g).sum := by
  induction ms with
  | nil => intro m _; simp
  | cons x xs ih =>
    intro m hm
    have hfiles : (mergeStats m x).files = m.files + 1 :=
      (mergeStats_additive m x).2.2.2.2.1
    have hm1 : 1 ≤ (mergeStats m x).files := by omega
    have hstep := hg m x hm
    have hrec := ih (mergeStats m x) hm1
    rw [hfiles] at hrec
    have hne : ((m.files : ℚ) + 1) ≠ 0 := by positivity
    have hB : g (mergeStats m x) * ((m.files : ℚ) + 1) = g m * m.files + g x := by
      rw [hstep]; field_simp
    rw [List.foldl_cons]
    simp only [List.length_cons, List.map_cons, List.sum_cons]
    push_cast at hrec ⊢
    linear_combination hrec + hB

/-- One map update adds the new record's value of any field that the merge
sums (for `files` this needs the per-file record to carry `files = 1`). -/
theorem sumMap_updateMap (f : LanguageStats → Nat) (k : Str) (v : LanguageStats)
    (map : List (Str × LanguageStats))
    (hf : ∀ a : LanguageStats, f (mergeStats a v) = f a + f v) :
    sumMap f (updateMap map (k, v)) = sumMap f map + f v := by
  induction map with
  | nil => simp [updateMap, sumMap]
  | cons hd tl ih =>
    obtain ⟨k1, v1⟩ := hd
    by_cases h : k = k1
    · simp [updateMap, h, sumMap, hf]
      omega
    · simp only [updateMap, if_neg h, sumMap, List.map_cons, List.sum_cons]
      simp only [sumMap] at ih
      omega

/-- Folding a batch of records into the map adds the batch's field sum. -/
theorem sumMap_foldl (f : LanguageStats → Nat)
    (hf : ∀ a b : LanguageStats, b.files = 1 → f (mergeStats a b) = f a + f b)
    (ms : List (Str × LanguageStats)) :
    ∀ map : List (Str × LanguageStats), (∀ m ∈ ms, m.2.files = 1) →
      sumMap f (ms.foldl updateMap map) = sumMap f map + sumMetrics f ms := by
  induction ms with
  | nil => intro map _; simp [sumMetrics]
  | cons x xs ih =>
    intro map hall
    obtain ⟨k, v⟩ := x
    have hv : v.files = 1 := hall (k, v) (by simp)
    have hx : ∀ a : LanguageStats, f (mergeStats a v) = f a + f v :=
      fun a => hf a v hv
    rw [List.foldl_cons, ih (updateMap map (k, v)) (fun m hm => hall m (by simp [hm])),
        sumMap_updateMap f k v map hx]
    simp [sumMetrics]
    omega

/-- A key different from the update's key is untouched. -/
theorem lookupMap_updateMap_ne (k k1 : Str) (v : LanguageStats)
    (map : List (Str × LanguageStats)) (h : k ≠ k1) :
    lookupMap k (updateMap map (k1, v)) = lookupMap k map := by
  induction map with
  | nil => simp [updateMap, lookupMap, h]
  | cons hd tl ih =>
    obtain ⟨k2, v2⟩ := hd
    by_cases h2 : k1 = k2
    · subst h2
      simp [updateMap, lookupMap, h]
    · simp only [updateMap, if_neg h2, lookupMap]
      by_cases h3 : k = k2 <;> simp [h3, ih]

/-- The update's own key holds the merged (or, when absent, the inserted)
record afterwards. -/
theorem lookupMap_updateMap_same (k : Str) (v : LanguageStats)
    (map : List (Str × LanguageStats)) :
    lookupMap k (updateMap map (k, v)) =
      some (match lookupMap k map with
            | none => v
            | some a => mergeStats a v) := by
  induction map with
  | nil => simp [updateMap, lookupMap]
  | cons hd tl ih =>
    obtain ⟨k2, v2⟩ := hd
    by_cases h2 : k = k2
    · subst h2
      simp [updateMap, lookupMap]
    · simp [updateMap, lookupMap, h2, Ne.symm h2, ih]

/-- Routing: after a whole run, the aggregate stored under key `k` is the
per-key fold of exactly the records carrying key `k`, in arrival order. -/
theorem lookupMap_mergeAll_aux (k : Str) (ms : List (Str × LanguageStats)) :
    ∀ map : List (Str × LanguageStats),
      lookupMap k (ms.foldl updateMap map) =
        match lookupMap k map, (ms.filter (fun p => p.1 = k)).map (fun p => p.2) with
        | none, [] => none
        | none, v :: vs => some (vs.foldl mergeStats v)
        | some a, vs => some (vs.foldl mergeStats a) := by
  induction ms with
  | nil =>
    intro map
    cases h : lookupMap k map <;> simp [h]
  | cons x xs ih =>
    intro map
    obtain ⟨k1, v1⟩ := x
    rw [List.foldl_cons]
    rw [ih (updateMap map (k1, v1))]
    by_cases hk : k1 = k
    · subst hk
      rw [lookupMap_updateMap_same]
      cases h : lookupMap k1 map <;> simp [h]
    · rw [lookupMap_updateMap_ne k k1 v1 map (Ne.symm hk)]
      cases h : lookupMap k map <;> simp [h, hk]

/-! ### Helper lemmas about the hotspot ranker -/

theorem mem_insertByDesc (key : FileInfo → ℚ) (a x : FileInfo) :
    ∀ l : List FileInfo, x ∈ insertByDesc key a l ↔ x = a ∨ x ∈ l := by
  intro l
  induction l with
  | nil => simp [insertByDesc]
  | cons y ys ih =>
    simp only [insertByDesc]
    split
    · simp
    · simp only [List.mem_cons, ih]
      tauto

theorem mem_sortByDesc (key : FileInfo → ℚ) (x : FileInfo) :
    ∀ l : List FileInfo, x ∈ sortByDesc key l ↔ x ∈ l := by
  intro l
  induction l with
  | nil => simp [sortByDesc]
  | cons y ys ih =>
    simp only [sortByDesc, mem_insertByDesc, ih, List.mem_cons]

/-! ### Helper lemmas about the line classifier -/

/-- The code branch increments `code_lines` by one and `functions` by at
most one. -/
theorem codeBranch_counts (cfg : LanguageConfig) (st : ScanState) (lc : Str) :
    (codeBranch cfg st lc).code_lines = st.code_lines + 1 ∧
    (codeBranch cfg st lc).functions ≤ st.functions + 1 ∧
    (codeBranch cfg st lc).comment_lines = st.comment_lines ∧
    (codeBranch cfg st lc).blank_lines = st.blank_lines := by
  simp only [codeBranch]
  split <;> split <;> split <;> split <;> split <;> simp

/-- One classified line preserves `functions ≤ code_lines`. -/
theorem classifyContent_funs_le (cfg : LanguageConfig) (st : ScanState) (lc : Str)
    (h : st.functions ≤ st.code_lines) :
    (classifyContent cfg st lc).functions ≤ (classifyContent cfg st lc).code_lines := by
  simp only [classifyContent, singleOrCode]
  split
  · split
    · split <;> simp <;> omega
    · split <;> simp <;> omega
  · split
    · split
      · simp
        omega
      · have hc := codeBranch_counts cfg
          { st with code_lines := st.code_lines + 1 } lc
        dsimp only at hc
        omega
    · have hc := codeBranch_counts cfg st lc
      omega

/-- One scanned line preserves `functions ≤ code_lines`. -/
theorem processLine_funs_le (cfg : LanguageConfig) (st : ScanState) (l : Str)
    (h : st.functions ≤ st.code_lines) :
    (processLine cfg st l).functions ≤ (processLine cfg st l).code_lines := by
  simp only [processLine]
  split
  · simpa using h
  · split
    · split
      · simpa using h
      · split
        · simpa using h
        · exact classifyContent_funs_le cfg _ _ (by simpa using h)
    · exact classifyContent_funs_le cfg _ _ (by simpa using h)

/-- Across the whole scan, a file never reports more functions than code
lines (the function-keyword scan only runs on lines counted as code). -/
theorem scanLines_funs_le (cfg : LanguageConfig) (lines : List Str) :
    (scanLines cfg lines).functions ≤ (scanLines cfg lines).code_lines := by
  suffices h : ∀ st : ScanState, st.functions ≤ st.code_lines →
      (lines.foldl (processLine cfg) st).functions ≤
        (lines.foldl (processLine cfg) st).code_lines by
    exact h {} (by simp)
  induction lines with
  | nil => intro st h; simpa using h
  | cons l ls ih =>
    intro st h
    exact ih (processLine cfg st l) (processLine_funs_le cfg st l h)

/-- A line inside an open multi-line comment that does not contain the
terminator counts as comment and leaves the carry state open. -/
theorem processLine_inside_open (cfg : LanguageConfig) (st : ScanState) (l : Str)
    (hin : st.in_multi = true) (hnb : trimStr l ≠ [])
    (hne : findSub st.multi_end (trimStr l) = none) :
    (processLine cfg st l).comment_lines = st.comment_lines + 1 ∧
    (processLine cfg st l).code_lines = st.code_lines ∧
    (processLine cfg st l).blank_lines = st.blank_lines ∧
    (processLine cfg st l).in_multi = true ∧
    (processLine cfg st l).multi_end = st.multi_end := by
  simp only [processLine, if_neg hnb]
  simp only [hin, if_pos, hne]
  simp

/-- A line inside an open multi-line comment whose terminator is followed
only by whitespace counts as comment and closes the carry state. -/
theorem processLine_inside_close (cfg : LanguageConfig) (st : ScanState) (l : Str)
    (hin : st.in_multi = true) (hnb : trimStr l ≠ [])
    (hcl : closesCleanly st.multi_end (trimStr l) = true) :
    (processLine cfg st l).comment_lines = st.comment_lines + 1 ∧
    (processLine cfg st l).code_lines = st.code_lines ∧
    (processLine cfg st l).blank_lines = st.blank_lines := by
  simp only [processLine, if_neg hnb]
  cases hq : findSub st.multi_end (trimStr l) with
  | none => simp [closesCleanly, hq] at hcl
  | some q =>
    simp only [closesCleanly, hq, List.isEmpty_iff] at hcl
    simp only [hin, if_pos, hq, hcl]
    simp

/-- A line that opens the (single configured) multi-line comment at its
very start, without closing it, counts as comment and opens the carry
state with terminator `e`. -/
theorem processLine_open_start (cfg : LanguageConfig) (s e : Str) (st : ScanState)
    (l : Str) (hcfg : cfg.multi_line_comments = [(s, e)])
    (hin : st.in_multi = false) (hnb : trimStr l ≠ [])
    (hs : findSub s (trimStr l) = some 0)
    (hnoe : findSub e ((trimStr l).drop s.length) = none) :
    (processLine cfg st l).comment_lines = st.comment_lines + 1 ∧
    (processLine cfg st l).code_lines = st.code_lines ∧
    (processLine cfg st l).blank_lines = st.blank_lines ∧
    (processLine cfg st l).in_multi = true ∧
    (processLine cfg st l).multi_end = e := by
  simp only [processLine, if_neg hnb, hin, Bool.false_eq_true, if_neg,
    classifyContent, hcfg, findFirstPair, hs]
  simp only [Nat.zero_add, hnoe]
  simp [trimStr]

/-- A one-line self-contained comment: the line starts with `s`, the
terminator follows, and nothing but whitespace comes after it. -/
theorem processLine_self_contained (cfg : LanguageConfig) (s e : Str) (st : ScanState)
    (l : Str) (hcfg : cfg.multi_line_comments = [(s, e)])
    (hin : st.in_multi = false) (hnb : trimStr l ≠ [])
    (hs : findSub s (trimStr l) = some 0)
    (hcl : closesCleanly e ((trimStr l).drop s.length) = true) :
    (processLine cfg st l).comment_lines = st.comment_lines + 1 ∧
    (processLine cfg st l).code_lines = st.code_lines ∧
    (processLine cfg st l).blank_lines = st.blank_lines := by
  cases hq : findSub e ((trimStr l).drop s.length) with
  | none => simp [closesCleanly, hq] at hcl
  | some q =>
    simp only [closesCleanly, hq, List.isEmpty_iff] at hcl
    simp only [processLine, if_neg hnb, hin, Bool.false_eq_true, if_neg,
      classifyContent, hcfg, findFirstPair, hs]
    simp only [Nat.zero_add, hq]
    have hdrop : (trimStr l).drop (s.length + q + e.length) =
        ((trimStr l).drop s.length).drop (q + e.length) := by
      rw [List.drop_drop]
      ring_nf
    rw [hdrop, hcl]
    simp [trimStr]

/-- Folding the scanner over the continuation lines of an open comment:
every line is counted as comment, and code/blank counts are untouched. -/
theorem foldl_chainClosed (cfg : LanguageConfig) (e : Str) :
    ∀ (ls : List Str) (st : ScanState), st.in_multi = true → st.multi_end = e →
      chainClosed e ls = true → (∀ l ∈ ls, trimStr l ≠ []) →
      (ls.foldl (processLine cfg) st).comment_lines = st.comment_lines + ls.length ∧
      (ls.foldl (processLine cfg) st).code_lines = st.code_lines ∧
      (ls.foldl (processLine cfg) st).blank_lines = st.blank_lines := by
  intro ls
  induction ls with
  | nil => intro st _ _ hch _; simp [chainClosed] at hch
  | cons l tl ih =>
    intro st hin hend hch hnb
    cases tl with
    | nil =>
      have hcl : closesCleanly e (trimStr l) = true := by
        simpa [chainClosed] using hch
      have h := processLine_inside_close cfg st l hin (hnb l (by simp))
        (by rw [hend]; exact hcl)
      simp only [List.foldl_cons, List.foldl_nil, List.length_cons, List.length_nil]
      omega
    | cons l2 tl2 =>
      simp only [chainClosed, Bool.and_eq_true, beq_iff_eq] at hch
      obtain ⟨hne, hch2⟩ := hch
      have h := processLine_inside_open cfg st l hin (hnb l (by simp))
        (by rw [hend]; exact hne)
      have hrec := ih (processLine cfg st l) h.2.2.2.1 (h.2.2.2.2.trans hend) hch2
        (fun x hx => hnb x (by simp [hx]))
      simp only [List.foldl_cons] at hrec ⊢
      simp only [List.length_cons] at hrec ⊢
      omega

/-! ### The checked claims -/

/-- Claim C1: the spec's invariant `code_lines + comment_lines +
blank_lines = total_lines` FAILS on the code.  On the two-line Rust file
`/*` · `*/ x = 1`, the line closing the comment is counted once as comment
(loco.rs 937) and then its remainder is counted again as code
(loco.rs 993), so the three classes sum to 3 on a 2-line file. -/
theorem claim1_sum_invariant_fails :
    (analyzeContent rustConfig [s2l "/*", s2l "*/ x = 1"]).total_lines = 2 ∧
    (analyzeContent rustConfig [s2l "/*", s2l "*/ x = 1"]).code_lines = 1 ∧
    (analyzeContent rustConfig [s2l "/*", s2l "*/ x = 1"]).comment_lines = 2 ∧
    (analyzeContent rustConfig [s2l "/*", s2l "*/ x = 1"]).blank_lines = 0 ∧
    (analyzeContent rustConfig [s2l "/*", s2l "*/ x = 1"]).code_lines +
      (analyzeContent rustConfig [s2l "/*", s2l "*/ x = 1"]).comment_lines +
      (analyzeContent rustConfig [s2l "/*", s2l "*/ x = 1"]).blank_lines ≠
      (analyzeContent rustConfig [s2l "/*", s2l "*/ x = 1"]).total_lines := by
  decide

/-- Claim C2, counterexample: the merged `avg_line_length` after merging
`metricA` (1 line, average 0) and `metricB` (3 lines, average 4) is `2`
(the file-count-weighted mean), not the lines-weighted mean `3`: the
weights at loco.rs 2224-2232 are file counts, not line counts. -/
theorem claim2_lines_weighted_cex :
    metricA.files = 1 ∧ metricB.files = 1 ∧
    lookupMap (s2l "Rust") (mergeAll [(s2l "Rust", metricA), (s2l "Rust", metricB)]) =
      some (mergeStats metricA metricB) ∧
    (mergeStats metricA metricB).avg_line_length = 2 ∧
    (metricA.avg_line_length * metricA.total_lines +
        metricB.avg_line_length * metricB.total_lines) /
      ((metricA.total_lines : ℚ) + metricB.total_lines) = 3 ∧
    (2 : ℚ) ≠ 3 := by
  refine ⟨by decide, by decide, rfl, ?_, ?_, by norm_num⟩
  · norm_num [mergeStats, metricA, metricB]
  · norm_num [metricA, metricB]

/-- Claim C2 (amended): after every merge, each weighted-average field of
the language's aggregate equals the file-count-weighted (arithmetic) mean
of the corresponding per-file values of all files merged so far for that
language — not the lines-weighted mean.  `v :: vs` are the per-file
records that arrived under key `k`, in merge order. -/
theorem claim2_file_weighted_mean (ms : List (Str × LanguageStats)) (k : Str)
    (v : LanguageStats) (vs : List LanguageStats)
    (hall : ∀ m ∈ ms, m.2.files = 1)
    (hfil : (ms.filter (fun p => p.1 = k)).map (fun p => p.2) = v :: vs) :
    ∃ agg : LanguageStats,
      lookupMap k (mergeAll ms) = some agg ∧
      agg.files = vs.length + 1 ∧
      agg.avg_line_length =
        (v.avg_line_length + (vs.map (fun m => m.avg_line_length)).sum) / (vs.length + 1) ∧
      agg.complexity_score =
        (v.complexity_score + (vs.map (fun m => m.complexity_score)).sum) / (vs.length + 1) ∧
      agg.maintainability_index =
        (v.maintainability_index + (vs.map (fun m => m.maintainability_index)).sum) /
          (vs.length + 1) ∧
      agg.cyclomatic_complexity =
        (v.cyclomatic_complexity + (vs.map (fun m => m.cyclomatic_complexity)).sum) /
          (vs.length + 1) := by
  have hv1 : v.files = 1 := by
    have hmem : v ∈ (ms.filter (fun p => p.1 = k)).map (fun p => p.2) := by
      rw [hfil]; simp
    obtain ⟨p, hp, hpv⟩ := List.mem_map.mp hmem
    rw [← hpv]
    exact hall p (List.mem_of_mem_filter hp)
  have hlook : lookupMap k (mergeAll ms) = some (vs.foldl mergeStats v) := by
    have h := lookupMap_mergeAll_aux k ms []
    rw [hfil] at h
    exact h
  have hfiles : (vs.foldl mergeStats v).files = vs.length + 1 := by
    rw [foldl_mergeStats_files vs v, hv1]
    omega
  have hne : ((vs.length : ℚ) + 1) ≠ 0 := by positivity
  have havg : ∀ g : LanguageStats → ℚ,
      (∀ a b : LanguageStats, 1 ≤ a.files →
        g (mergeStats a b) = (g a * a.files + g b) / (a.files + 1)) →
      g (vs.foldl mergeStats v) = (g v + (vs.map g).sum) / (vs.length + 1) := by
    intro g hg
    have h := foldl_mergeStats_avgField g hg vs v (by omega)
    rw [hv1] at h
    push_cast at h
    rw [eq_div_iff hne]
    linear_combination h
  exact ⟨vs.foldl mergeStats v, hlook, hfiles,
    havg _ (fun a b ha => (mergeStats_averages a b ha).1),
    havg _ (fun a b ha => (mergeStats_averages a b ha).2.1),
    havg _ (fun a b ha => (mergeStats_averages a b ha).2.2.1),
    havg _ (fun a b ha => (mergeStats_averages a b ha).2.2.2)⟩

/-- Witness for the amended Claim C2, at the concrete two-file run
`metricA` then `metricB` under one language key. -/
theorem claim2_file_weighted_mean_witness :
    (∀ m ∈ [(s2l "Rust", metricA), (s2l "Rust", metricB)], m.2.files = 1) ∧
    (([(s2l "Rust", metricA), (s2l "Rust", metricB)].filter
        (fun p => p.1 = s2l "Rust")).map (fun p => p.2) = metricA :: [metricB]) ∧
    (∃ agg : LanguageStats,
      lookupMap (s2l "Rust")
          (mergeAll [(s2l "Rust", metricA), (s2l "Rust", metricB)]) = some agg ∧
      agg.files = [metricB].length + 1 ∧
      agg.avg_line_length =
        (metricA.avg_line_length + ([metricB].map (fun m => m.avg_line_length)).sum) /
          ([metricB].length + 1) ∧
      agg.complexity_score =
        (metricA.complexity_score + ([metricB].map (fun m => m.complexity_score)).sum) /
          ([metricB].length + 1) ∧
      agg.maintainability_index =
        (metricA.maintainability_index +
            ([metricB].map (fun m => m.maintainability_index)).sum) /
          ([metricB].length + 1) ∧
      agg.cyclomatic_complexity =
        (metricA.cyclomatic_complexity +
            ([metricB].map (fun m => m.cyclomatic_complexity)).sum) /
          ([metricB].length + 1)) :=
  ⟨by decide, by decide,
    claim2_file_weighted_mean [(s2l "Rust", metricA), (s2l "Rust", metricB)]
      (s2l "Rust") metricA [metricB] (by decide) (by decide)⟩

/-- Claim C3, counterexample: constructing the Python rule set — which
contains multi-line pairs with self-equal terminators — does NOT fail:
`get_config("py")` returns it, with no validation anywhere. -/
theorem claim3_construction_succeeds_cex :
    (getConfig (s2l "py")).isSome = true ∧
    (getConfig (s2l "py")).map
      (fun c => c.multi_line_comments.any (fun p => p.1 == p.2)) = some true := by
  decide

/-- Claim C3 (amended): rule construction never fails and performs no
validation of multi-line pairs: `get_config("py")` returns the Python rule
set, whose two multi-line pairs both have self-equal terminators, and the
per-line classifier runs on that rule set without any prior failure. -/
theorem claim3_no_rule_validation :
    getConfig (s2l "py") = some pythonConfig ∧
    pythonConfig.multi_line_comments =
      [(s2l "\"\"\"", s2l "\"\"\""), (s2l "'''", s2l "'''")] ∧
    pythonConfig.multi_line_comments.all (fun p => p.1 == p.2) = true ∧
    (analyzeContent pythonConfig [s2l "x = 1"]).code_lines = 1 := by
  decide

/-- Claim C4: on the spec's worked example (`# comment` · blank ·
`x = 1  # trailing` with single-line marker `#`), the code produces
`code_lines = 2`, not the expected `1`: the trailing-comment line is
counted once at loco.rs 986 and again at loco.rs 993 because
`found_comment` is never set on that path. -/
theorem claim4_trailing_comment_double_count :
    (analyzeContent hashRule
      [s2l "# comment", s2l "", s2l "x = 1  # trailing"]).total_lines = 3 ∧
    (analyzeContent hashRule
      [s2l "# comment", s2l "", s2l "x = 1  # trailing"]).blank_lines = 1 ∧
    (analyzeContent hashRule
      [s2l "# comment", s2l "", s2l "x = 1  # trailing"]).comment_lines = 1 ∧
    (analyzeContent hashRule
      [s2l "# comment", s2l "", s2l "x = 1  # trailing"]).code_lines = 2 ∧
    (analyzeContent hashRule
      [s2l "# comment", s2l "", s2l "x = 1  # trailing"]).code_lines ≠ 1 := by
  decide

/-- Claim C5, counterexample: the three-line Rust input `/*` · blank ·
`*/` is fully enclosed in one multi-line comment spanning every line, yet
the blank middle line is classified blank (the blank check at loco.rs 906
precedes the in-comment check), so `comment_lines = 2 ≠ 3 = total_lines`. -/
theorem claim5_blank_line_cex :
    rustConfig.multi_line_comments = [(s2l "/*", s2l "*/")] ∧
    fullyEnclosed (s2l "/*") (s2l "*/") [s2l "/*", s2l "", s2l "*/"] = true ∧
    (analyzeContent rustConfig [s2l "/*", s2l "", s2l "*/"]).comment_lines = 2 ∧
    (analyzeContent rustConfig [s2l "/*", s2l "", s2l "*/"]).total_lines = 3 ∧
    (analyzeContent rustConfig [s2l "/*", s2l "", s2l "*/"]).comment_lines ≠
      (analyzeContent rustConfig [s2l "/*", s2l "", s2l "*/"]).total_lines ∧
    (analyzeContent rustConfig [s2l "/*", s2l "", s2l "*/"]).code_lines = 0 := by
  decide

/-- Claim C5 (amended): for every input fully enclosed in a single
multi-line comment spanning every line AND containing no blank
(whitespace-only) line, the classifier yields
`comment_lines = total_lines` and `code_lines = 0`. -/
theorem claim5_enclosed_all_comment (cfg : LanguageConfig) (s e : Str)
    (lines : List Str) (hcfg : cfg.multi_line_comments = [(s, e)])
    (hfe : fullyEnclosed s e lines = true) (hnb : noBlankLines lines = true) :
    (analyzeContent cfg lines).comment_lines = (analyzeContent cfg lines).total_lines ∧
    (analyzeContent cfg lines).code_lines = 0 := by
  have hnb1 : ∀ l ∈ lines, trimStr l ≠ [] := by
    intro l hl
    have h := (List.all_eq_true.mp hnb) l hl
    simpa [List.isEmpty_iff] using h
  cases lines with
  | nil => simp [fullyEnclosed] at hfe
  | cons first rest =>
    have hgoal :
        (scanLines cfg (first :: rest)).comment_lines = (first :: rest).length ∧
        (scanLines cfg (first :: rest)).code_lines = 0 →
        (analyzeContent cfg (first :: rest)).comment_lines =
          (analyzeContent cfg (first :: rest)).total_lines ∧
        (analyzeContent cfg (first :: rest)).code_lines = 0 := fun h => h
    apply hgoal
    cases rest with
    | nil =>
      simp only [fullyEnclosed, Bool.and_eq_true, beq_iff_eq] at hfe
      obtain ⟨hs, hcl⟩ := hfe
      have h := processLine_self_contained cfg s e {} first hcfg rfl
        (hnb1 first (by simp)) hs hcl
      simp only [scanLines, List.foldl_cons, List.foldl_nil, List.length_cons,
        List.length_nil]
      constructor
      · rw [h.1]
      · rw [h.2.1]
    | cons r2 rrest =>
      simp only [fullyEnclosed, Bool.and_eq_true, beq_iff_eq] at hfe
      obtain ⟨hs, hnoe, hch⟩ := hfe
      have h1 := processLine_open_start cfg s e {} first hcfg rfl
        (hnb1 first (by simp)) hs hnoe
      have h2 := foldl_chainClosed cfg e (r2 :: rrest) (processLine cfg {} first)
        h1.2.2.2.1 h1.2.2.2.2 hch (fun l hl => hnb1 l (by simp [hl]))
      constructor
      · show (List.foldl (processLine cfg) {} (first :: r2 :: rrest)).comment_lines = _
        rw [List.foldl_cons, h2.1, h1.1]
        simp only [List.length_cons]
        omega
      · show (List.foldl (processLine cfg) {} (first :: r2 :: rrest)).code_lines = 0
        rw [List.foldl_cons, h2.2.1, h1.2.1]

/-- Witness for the amended Claim C5, at the concrete three-line Rust
comment `/*` · ` hi` · `*/`. -/
theorem claim5_enclosed_all_comment_witness :
    rustConfig.multi_line_comments = [(s2l "/*", s2l "*/")] ∧
    fullyEnclosed (s2l "/*") (s2l "*/") [s2l "/*", s2l " hi", s2l "*/"] = true ∧
    noBlankLines [s2l "/*", s2l " hi", s2l "*/"] = true ∧
    ((analyzeContent rustConfig [s2l "/*", s2l " hi", s2l "*/"]).comment_lines =
        (analyzeContent rustConfig [s2l "/*", s2l " hi", s2l "*/"]).total_lines ∧
      (analyzeContent rustConfig [s2l "/*", s2l " hi", s2l "*/"]).code_lines = 0) :=
  ⟨by decide, by decide, by decide,
    claim5_enclosed_all_comment rustConfig (s2l "/*") (s2l "*/")
      [s2l "/*", s2l " hi", s2l "*/"] (by decide) (by decide) (by decide)⟩

/-- Claim C6: for every list of per-file records (hence for every merge
order — the right side is invariant under permutation), each additive
field summed over all resulting language aggregates equals that field
summed over the individual records.  Per-file records carry `files = 1`
(loco.rs 1097). -/
theorem claim6_additive_sums (ms : List (Str × LanguageStats))
    (hall : ∀ m ∈ ms, m.2.files = 1) :
    sumMap (fun a => a.total_lines) (mergeAll ms) = sumMetrics (fun a => a.total_lines) ms ∧
    sumMap (fun a => a.code_lines) (mergeAll ms) = sumMetrics (fun a => a.code_lines) ms ∧
    sumMap (fun a => a.comment_lines) (mergeAll ms) =
      sumMetrics (fun a => a.comment_lines) ms ∧
    sumMap (fun a => a.blank_lines) (mergeAll ms) = sumMetrics (fun a => a.blank_lines) ms ∧
    sumMap (fun a => a.files) (mergeAll ms) = sumMetrics (fun a => a.files) ms ∧
    sumMap (fun a => a.total_size) (mergeAll ms) = sumMetrics (fun a => a.total_size) ms ∧
    sumMap (fun a => a.functions) (mergeAll ms) = sumMetrics (fun a => a.functions) ms ∧
    sumMap (fun a => a.classes) (mergeAll ms) = sumMetrics (fun a => a.classes) ms ∧
    sumMap (fun a => a.imports) (mergeAll ms) = sumMetrics (fun a => a.imports) ms ∧
    sumMap (fun a => a.todos) (mergeAll ms) = sumMetrics (fun a => a.todos) ms ∧
    sumMap (fun a => a.fixmes) (mergeAll ms) = sumMetrics (fun a => a.fixmes) ms := by
  have base : ∀ f : LanguageStats → Nat,
      (∀ a b : LanguageStats, b.files = 1 → f (mergeStats a b) = f a + f b) →
      sumMap f (mergeAll ms) = sumMetrics f ms := by
    intro f hf
    have h := sumMap_foldl f hf ms [] hall
    simpa [mergeAll, sumMap] using h
  refine ⟨base _ fun a b _ => (mergeStats_additive a b).1,
    base _ fun a b _ => (mergeStats_additive a b).2.1,
    base _ fun a b _ => (mergeStats_additive a b).2.2.1,
    base _ fun a b _ => (mergeStats_additive a b).2.2.2.1,
    base _ ?_,
    base _ fun a b _ => (mergeStats_additive a b).2.2.2.2.2.1,
    base _ fun a b _ => (mergeStats_additive a b).2.2.2.2.2.2.1,
    base _ fun a b _ => (mergeStats_additive a b).2.2.2.2.2.2.2.1,
    base _ fun a b _ => (mergeStats_additive a b).2.2.2.2.2.2.2.2.1,
    base _ fun a b _ => (mergeStats_additive a b).2.2.2.2.2.2.2.2.2.1,
    base _ fun a b _ => (mergeStats_additive a b).2.2.2.2.2.2.2.2.2.2⟩
  intro a b hb
  rw [(mergeStats_additive a b).2.2.2.2.1, hb]

/-- Witness for Claim C6, at a concrete two-language run. -/
theorem claim6_additive_sums_witness :
    (∀ m ∈ [(s2l "Rust", metricA), (s2l "Python", metricB)], m.2.files = 1) ∧
    (sumMap (fun a => a.total_lines)
        (mergeAll [(s2l "Rust", metricA), (s2l "Python", metricB)]) =
      sumMetrics (fun a => a.total_lines)
        [(s2l "Rust", metricA), (s2l "Python", metricB)] ∧
    sumMap (fun a => a.code_lines)
        (mergeAll [(s2l "Rust", metricA), (s2l "Python", metricB)]) =
      sumMetrics (fun a => a.code_lines)
        [(s2l "Rust", metricA), (s2l "Python", metricB)] ∧
    sumMap (fun a => a.comment_lines)
        (mergeAll [(s2l "Rust", metricA), (s2l "Python", metricB)]) =
      sumMetrics (fun a => a.comment_lines)
        [(s2l "Rust", metricA), (s2l "Python", metricB)] ∧
    sumMap (fun a => a.blank_lines)
        (mergeAll [(s2l "Rust", metricA), (s2l "Python", metricB)]) =
      sumMetrics (fun a => a.blank_lines)
        [(s2l "Rust", metricA), (s2l "Python", metricB)] ∧
    sumMap (fun a => a.files)
        (mergeAll [(s2l "Rust", metricA), (s2l "Python", metricB)]) =
      sumMetrics (fun a => a.files)
        [(s2l "Rust", metricA), (s2l "Python", metricB)] ∧
    sumMap (fun a => a.total_size)
        (mergeAll [(s2l "Rust", metricA), (s2l "Python", metricB)]) =
      sumMetrics (fun a => a.total_size)
        [(s2l "Rust", metricA), (s2l "Python", metricB)] ∧
    sumMap (fun a => a.functions)
        (mergeAll [(s2l "Rust", metricA), (s2l "Python", metricB)]) =
      sumMetrics (fun a => a.functions)
        [(s2l "Rust", metricA), (s2l "Python", metricB)] ∧
    sumMap (fun a => a.classes)
        (mergeAll [(s2l "Rust", metricA), (s2l "Python", metricB)]) =
      sumMetrics (fun a => a.classes)
        [(s2l "Rust", metricA), (s2l "Python", metricB)] ∧
    sumMap (fun a => a.imports)
        (mergeAll [(s2l "Rust", metricA), (s2l "Python", metricB)]) =
      sumMetrics (fun a => a.imports)
        [(s2l "Rust", metricA), (s2l "Python", metricB)] ∧
    sumMap (fun a => a.todos)
        (mergeAll [(s2l "Rust", metricA), (s2l "Python", metricB)]) =
      sumMetrics (fun a => a.todos)
        [(s2l "Rust", metricA), (s2l "Python", metricB)] ∧
    sumMap (fun a => a.fixmes)
        (mergeAll [(s2l "Rust", metricA), (s2l "Python", metricB)]) =
      sumMetrics (fun a => a.fixmes)
        [(s2l "Rust", metricA), (s2l "Python", metricB)]) :=
  ⟨by decide, claim6_additive_sums
    [(s2l "Rust", metricA), (s2l "Python", metricB)] (by decide)⟩

/-- Claim C7: for every input content, language rule, and interpretation
of `f64::ln`, the maintainability index of the produced record lies in
`[0, 100]` (the code clamps with `.max(0.0).min(100.0)` at loco.rs 1064,
and the degenerate branch returns `50.0`). -/
theorem claim7_mi_in_range (ln : ℚ → ℚ) (cfg : LanguageConfig) (lines : List Str) :
    0 ≤ maintainabilityIndex ln (analyzeContent cfg lines) ∧
    maintainabilityIndex ln (analyzeContent cfg lines) ≤ 100 := by
  constructor
  · unfold maintainabilityIndex
    split
    · dsimp only
      exact le_min (le_max_right _ _) (by norm_num)
    · norm_num
  · unfold maintainabilityIndex
    split
    · dsimp only
      exact min_le_right _ _
    · norm_num

/-- Claim C8: zero-length input yields a record with every counter and
every guarded ratio equal to zero, produced as a normal (total) result:
the lines loop is a no-op and all derived values take their
zero-denominator guards. -/
theorem claim8_empty_input_zero (cfg : LanguageConfig) :
    (analyzeContent cfg []).total_lines = 0 ∧
    (analyzeContent cfg []).code_lines = 0 ∧
    (analyzeContent cfg []).comment_lines = 0 ∧
    (analyzeContent cfg []).blank_lines = 0 ∧
    (analyzeContent cfg []).functions = 0 ∧
    (analyzeContent cfg []).classes = 0 ∧
    (analyzeContent cfg []).imports = 0 ∧
    (analyzeContent cfg []).todos = 0 ∧
    (analyzeContent cfg []).fixmes = 0 ∧
    (analyzeContent cfg []).max_line_length = 0 ∧
    (analyzeContent cfg []).total_chars = 0 ∧
    (analyzeContent cfg []).avg_line_length = 0 ∧
    (analyzeContent cfg []).complexity_score = 0 ∧
    (analyzeContent cfg []).technical_debt_ratio = 0 ∧
    (analyzeContent cfg []).code_percentage = 0 ∧
    (analyzeContent cfg []).comment_percentage = 0 ∧
    (analyzeContent cfg []).blank_percentage = 0 :=
  ⟨rfl, rfl, rfl, rfl, rfl, rfl, rfl, rfl, rfl, rfl, rfl, rfl, rfl, rfl, rfl, rfl, rfl⟩

/-- Claim C9, counterexample: a file whose only signal is `todos = 5`
scores exactly the cutoff `3.0` and is returned by the ranker, so not
every returned file EXCEEDS the cutoff; the filter at loco.rs 1294 keeps
`risk_score >= 3.0`. -/
theorem claim9_cutoff_not_strict_cex :
    detectHotspots [riskFile] = [riskFile] ∧
    riskScore (largeFileThreshold [riskFile]) (highComplexityThreshold [riskFile])
      riskFile = 3 ∧
    ¬(riskScore (largeFileThreshold [riskFile]) (highComplexityThreshold [riskFile])
        riskFile > 3) := by
  refine ⟨?_, ?_, ?_⟩
  · norm_num [detectHotspots, riskScore, largeFileThreshold, highComplexityThreshold,
      sortAscN, sortAscQ, insertAscN, insertAscQ, riskFile, sortByDesc, insertByDesc,
      List.filter]
  · norm_num [riskScore, largeFileThreshold, highComplexityThreshold,
      sortAscN, sortAscQ, insertAscN, insertAscQ, riskFile]
  · norm_num [riskScore, largeFileThreshold, highComplexityThreshold,
      sortAscN, sortAscQ, insertAscN, insertAscQ, riskFile]

/-- Claim C9 (amended): the hotspot ranker returns at most 15 files, every
returned file has a risk score AT LEAST the cutoff `3.0` (not strictly
above it), and an empty input yields an empty hotspot list. -/
theorem claim9_hotspot_bounds (fs : List FileInfo) :
    (detectHotspots fs).length ≤ 15 ∧
    (∀ f ∈ detectHotspots fs,
      3 ≤ riskScore (largeFileThreshold fs) (highComplexityThreshold fs) f) ∧
    (fs = [] → detectHotspots fs = []) := by
  by_cases h : fs = []
  · subst h
    exact ⟨by simp [detectHotspots], by simp [detectHotspots], fun _ => rfl⟩
  · refine ⟨?_, ?_, fun he => absurd he h⟩
    · simp only [detectHotspots, if_neg h]
      simp [List.length_take]
    · intro f hf
      simp only [detectHotspots, if_neg h] at hf
      have h1 := List.mem_of_mem_take hf
      have h2 := (mem_sortByDesc rerankScore f _).mp h1
      have h3 := List.mem_filter.mp h2
      exact of_decide_eq_true h3.2

/-- Witness for the amended Claim C9: the empty-input branch, and the
cutoff bound instantiated at the concrete single-file population. -/
theorem claim9_hotspot_bounds_witness :
    (([] : List FileInfo) = []) ∧ detectHotspots ([] : List FileInfo) = [] ∧
    3 ≤ riskScore (largeFileThreshold [riskFile]) (highComplexityThreshold [riskFile])
      riskFile :=
  ⟨rfl, (claim9_hotspot_bounds []).2.2 rfl,
    (claim9_hotspot_bounds [riskFile]).2.1 riskFile
      (by norm_num [detectHotspots, riskScore, largeFileThreshold,
        highComplexityThreshold, sortAscN, sortAscQ, insertAscN, insertAscQ, riskFile,
        sortByDesc, insertByDesc, List.filter])⟩

/-- Claim C10: whenever the classification yields `total_lines > 0` but
`code_lines = 0`, the maintainability index is exactly `50.0` (loco.rs
1065) and the approximate cyclomatic complexity exactly `1.0` (loco.rs
1046, since function keywords are only scanned on code lines), for every
rule, input and interpretation of `f64::ln`. -/
theorem claim10_zero_code_defaults (ln : ℚ → ℚ) (cfg : LanguageConfig)
    (lines : List Str) (_htot : 0 < (analyzeContent cfg lines).total_lines)
    (hcode : (analyzeContent cfg lines).code_lines = 0) :
    maintainabilityIndex ln (analyzeContent cfg lines) = 50 ∧
    (analyzeContent cfg lines).cyclomatic_complexity = 1 := by
  have hsc : (scanLines cfg lines).code_lines = 0 := hcode
  have hfn : (scanLines cfg lines).functions = 0 := by
    have h := scanLines_funs_le cfg lines
    omega
  constructor
  · unfold maintainabilityIndex
    rw [if_neg]
    rw [hcode]
    simp
  · show (if (scanLines cfg lines).functions > 0 then _ else 1) = 1
    rw [hfn]
    simp

/-- Witness for Claim C10, at a single blank line (1 total line, 0 code
lines) under the Rust rules and the zero interpretation of `ln`. -/
theorem claim10_zero_code_defaults_witness :
    0 < (analyzeContent rustConfig [s2l ""]).total_lines ∧
    (analyzeContent rustConfig [s2l ""]).code_lines = 0 ∧
    (maintainabilityIndex (fun _ => 0) (analyzeContent rustConfig [s2l ""]) = 50 ∧
      (analyzeContent rustConfig [s2l ""]).cyclomatic_complexity = 1) :=
  ⟨by decide, by decide,
    claim10_zero_code_defaults (fun _ => 0) rustConfig [s2l ""] (by decide) (by decide)⟩

end Loco
